import Mathlib

/-
Verification of the event subscription/dispatch engine of `src/subscribe.rs`
(the `Subscriptions` registry, `EventSubscription` delivery state machine and
the typed `EventStream` adapter).

Shallow embedding conventions:
* `Arc<dyn Event>` is modelled by `ArcEvent T := Nat × T`: the `Nat` is the
  allocation identity of the `Arc` (its pointer), the `T` is the type-erased
  payload.  `Arc::clone` reuses the same value, so two handles denote the
  same reference-counted instance iff they are equal; `Arc::new` is modelled
  by consuming one fresh allocation id.
* `futures::channel::mpsc::UnboundedSender` (the `Sink` used by
  `EventSubscription::poll`) is external code; its observable behaviour at
  the `Sink` interface is modelled by response oracles (`readyOracle` for
  `Sink::poll_ready`, `sendOracle` for `Sink::start_send`) together with the
  list `sent` of items actually handed to the channel.
* `serde_json::Value` and `serde_json::Error` are opaque to this module and
  are modelled by type parameters `J` and `Err`.
* `HashMap<Cow<str>, Vec<EventSubscription>>` is modelled by an association
  list; `get_mut` is `lookupList` (first matching key) together with
  `modifyFirst` (in-place update of that entry).
-/

set_option maxHeartbeats 1000000

namespace Chromiumoxide

/-- Mirror of `std::task::Poll`. -/
inductive Poll (A : Type) where
  | Ready (a : A)
  | Pending
deriving DecidableEq

/-- Mirror of `futures::channel::mpsc::SendError`: the only observable used by
`subscribe.rs` is `is_disconnected` (line 84). -/
structure SendError where
  is_disconnected : Bool
deriving DecidableEq

/-- Model of `Arc<dyn Event>`: the `Nat` component is the allocation identity
of the `Arc` (pointer identity), the second component the erased payload.
Cloning an `Arc` is modelled by reusing the same value. -/
abbrev ArcEvent (T : Type) := Nat × T

/-- Model of the sender half `UnboundedSender<Arc<dyn Event>>` of the event
channel, seen through the `Sink` interface used by `EventSubscription::poll`:
`readyOracle n` is the answer of the `n`-th `Sink::poll_ready` call,
`sendOracle n` the outcome of the `n`-th `Sink::start_send` call, and `sent`
the events actually handed over to the channel, in order. -/
structure Listener (T : Type) where
  readyOracle : Nat → Poll (Except SendError Unit)
  readyCalls : Nat
  sendOracle : Nat → Option SendError
  sendCalls : Nat
  sent : List (ArcEvent T)

/-- One `Sink::poll_ready` call on the listener channel. -/
def Listener.poll_ready (l : Listener T) : Poll (Except SendError Unit) × Listener T :=
  (l.readyOracle l.readyCalls, { l with readyCalls := l.readyCalls + 1 })

/-- One `Sink::start_send` call on the listener channel: on success the event
is handed to the channel (appended to `sent`), on failure it is not. -/
def Listener.sink_start_send (l : Listener T) (e : ArcEvent T) :
    Option SendError × Listener T :=
  match l.sendOracle l.sendCalls with
  | none => (none, { l with sendCalls := l.sendCalls + 1, sent := l.sent ++ [e] })
  | some err => (some err, { l with sendCalls := l.sendCalls + 1 })

/-- Modelled from the spec: `EventKind` lives in the `chromiumoxide_cdp` crate
(not part of this repository's sources); per spec §3 it is `Native` (fixed
schema) or `Custom` holding a decoder from a raw encoded value to an Event
handle or a decode error. -/
inductive EventKind (T J Err : Type) where
  | Native : EventKind T J Err
  | Custom (conv : J → Except Err (ArcEvent T)) : EventKind T J Err

/-- Modelled from the spec: `EventKind::is_custom` of the `chromiumoxide_cdp`
crate, used at `subscribe.rs` line 69. -/
def EventKind.is_custom : EventKind T J Err → Bool
  | .Custom _ => true
  | .Native => false

/-- Mirror of `EventSubscription` (`subscribe.rs` lines 111-118): the sender
half of the event channel, the queue of currently queued events (`VecDeque`,
head = front) and the kind of event this subscription is for. -/
structure EventSubscription (T J Err : Type) where
  listener : Listener T
  queued_events : List (ArcEvent T)
  kind : EventKind T J Err

/-- Mirror of `EventSubscription::start_send` (lines 122-124): push the event
to the back of the queue. -/
def EventSubscription.start_send (sub : EventSubscription T J Err) (e : ArcEvent T) :
    EventSubscription T J Err :=
  { sub with queued_events := sub.queued_events ++ [e] }

/-- The loop body of `EventSubscription::poll` (lines 128-148), acting on the
listener channel and the queue: repeatedly ask the sink for readiness; on
`Ready(Err)` or `Pending` return at once; on `Ready(Ok)` pop the front of the
queue and hand it to the sink (a failing `start_send` returns its error),
returning `Ready(Ok)` once the queue is empty. -/
def pollLoop : Listener T → List (ArcEvent T) →
    Poll (Except SendError Unit) × Listener T × List (ArcEvent T)
  | l, [] =>
    match l.poll_ready with
    | (Poll.Ready (Except.error err), l') => (Poll.Ready (Except.error err), l', [])
    | (Poll.Pending, l') => (Poll.Pending, l', [])
    | (Poll.Ready (Except.ok _), l') => (Poll.Ready (Except.ok ()), l', [])
  | l, e :: rest =>
    match l.poll_ready with
    | (Poll.Ready (Except.error err), l') => (Poll.Ready (Except.error err), l', e :: rest)
    | (Poll.Pending, l') => (Poll.Pending, l', e :: rest)
    | (Poll.Ready (Except.ok _), l') =>
      match l'.sink_start_send e with
      | (some err, l'') => (Poll.Ready (Except.error err), l'', rest)
      | (none, l'') => pollLoop l'' rest

/-- Mirror of `EventSubscription::poll` (lines 128-148): run the drain loop on
this subscription's own channel and queue. -/
def EventSubscription.poll (sub : EventSubscription T J Err) :
    Poll (Except SendError Unit) × EventSubscription T J Err :=
  match pollLoop sub.listener sub.queued_events with
  | (r, l', q') => (r, { sub with listener := l', queued_events := q' })

/-- First-match lookup in an association list; models `HashMap::get` /
`HashMap::get_mut` reading the entry of a key. -/
def lookupList (m : String) : List (String × A) → Option A
  | [] => none
  | kv :: rest => if kv.1 = m then some kv.2 else lookupList m rest

/-- In-place update of the (unique) entry of a key in an association list;
models mutation through `HashMap::get_mut`. -/
def modifyFirst (m : String) (f : A → A) : List (String × A) → List (String × A)
  | [] => []
  | kv :: rest => if kv.1 = m then (kv.1, f kv.2) :: rest else kv :: modifyFirst m f rest

/-- Mirror of `Subscriptions` (lines 15-19): subscribers for each event,
identified by the method key. -/
structure Subscriptions (T J Err : Type) where
  subs : List (String × List (EventSubscription T J Err))

/-- The subscriptions currently registered under a method key. -/
def Subscriptions.getSubs (self : Subscriptions T J Err) (method : String) :
    Option (List (EventSubscription T J Err)) :=
  lookupList method self.subs

/-- Mirror of `SubscriptionRequest` (lines 95-99). -/
structure SubscriptionRequest (T J Err : Type) where
  listener : Listener T
  method : String
  kind : EventKind T J Err

/-- Mirror of `Subscriptions::add_listener` (lines 23-35): `entry(method)
.or_insert_with(Vec::new)` then push a fresh `EventSubscription` with an empty
queue. -/
def Subscriptions.add_listener (self : Subscriptions T J Err)
    (req : SubscriptionRequest T J Err) : Subscriptions T J Err :=
  match lookupList req.method self.subs with
  | some _ =>
    ⟨modifyFirst req.method (fun subs => subs ++ [⟨req.listener, [], req.kind⟩]) self.subs⟩
  | none => ⟨self.subs ++ [(req.method, [⟨req.listener, [], req.kind⟩])]⟩

/-- Mirror of `Subscriptions::start_send` (lines 37-44): if the key has an
entry, wrap the typed event once into a shared handle (`Arc::new`, modelled by
consuming the fresh allocation id `fresh`) and push a clone of that one handle
onto every subscription of the key, regardless of kind.  Returns the new
registry and the next fresh allocation id (`Arc::new` runs exactly when the
key has an entry). -/
def Subscriptions.start_send (self : Subscriptions T J Err) (fresh : Nat)
    (method : String) (event : T) : Subscriptions T J Err × Nat :=
  match lookupList method self.subs with
  | none => (self, fresh)
  | some _ =>
    let ev : ArcEvent T := (fresh, event)
    (⟨modifyFirst method (fun subs => subs.map (fun sub => sub.start_send ev)) self.subs⟩,
      fresh + 1)

/-- The first registered `Custom` decoder among a key's subscriptions; mirror
of `subscriptions.iter().filter_map(..Custom(conv)..).next()` (lines 53-62). -/
def firstCustomConv : List (EventSubscription T J Err) → Option (J → Except Err (ArcEvent T))
  | [] => none
  | sub :: rest =>
    match sub.kind with
    | .Custom conv => some conv
    | .Native => firstCustomConv rest

/-- Outcome of `Subscriptions::try_send_custom`: the returned
`serde_json::Result<()>`, the registry after the call, and the number of
decoder invocations performed during the call (instrumentation of the single
`json_to_arc_event(val)?` call site, line 64). -/
structure TrySendCustomOut (T J Err : Type) where
  res : Except Err Unit
  state : Subscriptions T J Err
  decoderCalls : Nat

/-- Mirror of `Subscriptions::try_send_custom` (lines 46-74): if the key has
an entry and it contains a `Custom` subscription, run the first such decoder
once on `val`; a decode error is returned to the caller with nothing enqueued
(`?` at line 64 returns before any mutation); on success the one decoded
handle is pushed (cloned) onto exactly the `Custom` subscriptions of the key.
All other paths return `Ok(())` without invoking any decoder. -/
def Subscriptions.try_send_custom (self : Subscriptions T J Err) (method : String)
    (val : J) : TrySendCustomOut T J Err :=
  match lookupList method self.subs with
  | none => ⟨Except.ok (), self, 0⟩
  | some subs =>
    match firstCustomConv subs with
    | none => ⟨Except.ok (), self, 0⟩
    | some conv =>
      match conv val with
      | Except.error e => ⟨Except.error e, self, 1⟩
      | Except.ok event =>
        ⟨Except.ok (),
          ⟨modifyFirst method
            (fun l => l.map (fun sub => if sub.kind.is_custom then sub.start_send event else sub))
            self.subs⟩,
          1⟩

/-- Model of `Vec::swap_remove(n)`: remove the element at index `n`, moving
the last element of the vector into the vacated slot; `none` when `n` is out
of bounds. -/
def swapRemoveOpt : List A → Nat → Option (A × List A)
  | [], _ => none
  | x :: rest, 0 =>
    match rest.getLast? with
    | none => some (x, [])
    | some z => some (x, z :: rest.dropLast)
  | a :: rest, n + 1 =>
    match swapRemoveOpt rest n with
    | none => none
    | some (x, rest') => some (x, a :: rest')

/-- The inner loop of `Subscriptions::poll` (lines 80-90) on one key's vector
of subscriptions: for `n` in `(0..k).rev()`, `swap_remove(n)` the
subscription, poll it, and push it back unless it reported a disconnection
error. -/
def pollVec : Nat → List (EventSubscription T J Err) → List (EventSubscription T J Err)
  | 0, subs => subs
  | n + 1, subs =>
    match swapRemoveOpt subs n with
    | none => subs
    | some (sub, rest) =>
      match sub.poll with
      | (Poll.Ready (Except.error err), sub') =>
        if err.is_disconnected then pollVec n rest
        else pollVec n (rest ++ [sub'])
      | (Poll.Ready (Except.ok _), sub') => pollVec n (rest ++ [sub'])
      | (Poll.Pending, sub') => pollVec n (rest ++ [sub'])

/-- Mirror of `Subscriptions::poll` (lines 78-92): drain every subscription of
every key, removing those whose receiver was dropped.  The Rust function
returns `()`: no error is ever surfaced to the caller. -/
def Subscriptions.poll (self : Subscriptions T J Err) : Subscriptions T J Err :=
  ⟨self.subs.map (fun kv => (kv.1, pollVec kv.2.length kv.2))⟩

/-- The fate of one subscription in a `Subscriptions::poll` pass: `none` when
its delivery poll reports a disconnection error (it is removed), otherwise the
polled subscription (it is retained, whether idle, mid-flush, waiting on
backpressure or failing with a non-disconnection error). -/
def pollKeep (sub : EventSubscription T J Err) : Option (EventSubscription T J Err) :=
  match sub.poll with
  | (Poll.Ready (Except.error err), sub') =>
    if err.is_disconnected then none else some sub'
  | (Poll.Ready (Except.ok _), sub') => some sub'
  | (Poll.Pending, sub') => some sub'

/-- Model of `Arc<dyn Event>` as seen by the typed stream adapter: a runtime
type tag (the `TypeId` consulted by `into_any_arc().downcast()`) and the
payload. -/
structure DynEvent (T : Type) where
  typeTag : Nat
  payload : T
deriving DecidableEq

/-- Mirror of `<EventStream<T> as Stream>::poll_next` (lines 181-194), acting
on the result of polling the underlying `events` receiver: a received event
whose runtime type matches the stream's bound tag is yielded; on a downcast
mismatch the code returns `Poll::Pending`; exhaustion and pending states of
the receiver pass through. -/
def EventStream.poll_next (boundTag : Nat) (upstream : Poll (Option (DynEvent T))) :
    Poll (Option T) :=
  match upstream with
  | Poll.Ready (some event) =>
    if event.typeTag = boundTag then Poll.Ready (some event.payload) else Poll.Pending
  | Poll.Ready none => Poll.Ready none
  | Poll.Pending => Poll.Pending

/-- One operation applied to a single subscription: a dispatch of an event
handle to its key (`EventSubscription::start_send`) or one drain call
(`EventSubscription::poll`). -/
inductive SubOp (T : Type) where
  | dispatch (e : ArcEvent T)
  | drain

/-- Apply one operation to a subscription. -/
def applyOp (sub : EventSubscription T J Err) : SubOp T → EventSubscription T J Err
  | .dispatch e => sub.start_send e
  | .drain => sub.poll.2

/-- Apply a sequence of dispatch/drain operations to a subscription. -/
def applyOps (sub : EventSubscription T J Err) (ops : List (SubOp T)) :
    EventSubscription T J Err :=
  ops.foldl applyOp sub

/-- The events dispatched by a sequence of operations, in dispatch order. -/
def dispatched : List (SubOp T) → List (ArcEvent T)
  | [] => []
  | .dispatch e :: rest => e :: dispatched rest
  | .drain :: rest => dispatched rest

/-- A listener channel that is always ready and whose sends always succeed
(the receiver stays connected and never exerts backpressure). -/
def AlwaysReady (l : Listener T) : Prop :=
  (∀ n, l.readyOracle n = Poll.Ready (Except.ok ())) ∧ (∀ n, l.sendOracle n = none)

/-- The tail of a vector after `swap_remove` of its head slot: the last
element moved to the front of the remaining elements (empty when there was no
other element). -/
def swapTail (B : List A) : List A :=
  match B.getLast? with
  | none => []
  | some z => z :: B.dropLast

/-- The `Native` subscriptions registered under a key, in order, with their
full state (channel and queue). -/
def nativesUnder (s : Subscriptions T J Err) (m : String) :
    Option (List (EventSubscription T J Err)) :=
  (s.getSubs m).map (fun l => l.filter (fun sub => !sub.kind.is_custom))

/-- The pending queues of the subscriptions registered under a key. -/
def queuesUnder (s : Subscriptions T J Err) (m : String) :
    Option (List (List (ArcEvent T))) :=
  (s.getSubs m).map (fun l => l.map (fun sub => sub.queued_events))

/-- A listener channel that always reports readiness and accepts every send. -/
def listenerOkW : Listener Nat :=
  ⟨fun _ => Poll.Ready (Except.ok ()), 0, fun _ => none, 0, []⟩

/-- A listener channel that always reports not-ready (backpressure). -/
def listenerPendW : Listener Nat :=
  ⟨fun _ => Poll.Pending, 0, fun _ => none, 0, []⟩

/-- A listener channel whose receiver was dropped: readiness polls report a
disconnection error. -/
def listenerDiscW : Listener Nat :=
  ⟨fun _ => Poll.Ready (Except.error ⟨true⟩), 0, fun _ => none, 0, []⟩

/-- A concrete custom decoder that succeeds, allocating handle id 100. -/
def convOkW : Nat → Except Nat (ArcEvent Nat) := fun j => Except.ok (100, j)

/-- A concrete custom decoder that always fails with error 42. -/
def convErrW : Nat → Except Nat (ArcEvent Nat) := fun _ => Except.error 42

/-- A concrete native subscription with an idle, connected channel. -/
def nativeSubW : EventSubscription Nat Nat Nat := ⟨listenerOkW, [], EventKind.Native⟩

/-- A concrete custom subscription whose decoder succeeds. -/
def customSubW : EventSubscription Nat Nat Nat := ⟨listenerOkW, [], EventKind.Custom convOkW⟩

/-- A concrete custom subscription whose decoder fails. -/
def customSubErrW : EventSubscription Nat Nat Nat := ⟨listenerOkW, [], EventKind.Custom convErrW⟩

/-- A concrete native subscription whose consumer has disconnected. -/
def discSubW : EventSubscription Nat Nat Nat := ⟨listenerDiscW, [], EventKind.Native⟩

/-- A concrete subscription blocked on backpressure with one queued event. -/
def pendSubW : EventSubscription Nat Nat Nat := ⟨listenerPendW, [(0, 5)], EventKind.Native⟩

/-- A registry with one native and one successful custom subscription under
key `m`. -/
def regMixedW : Subscriptions Nat Nat Nat := ⟨[("m", [nativeSubW, customSubW])]⟩

/-- A registry with a single failing custom subscription under key `m`. -/
def regErrW : Subscriptions Nat Nat Nat := ⟨[("m", [customSubErrW])]⟩

/-- A registry with a single custom subscription under key `m`. -/
def regCustomOnlyW : Subscriptions Nat Nat Nat := ⟨[("m", [customSubW])]⟩

/-- A registry with only a native subscription under key `k`. -/
def regNativeOnlyW : Subscriptions Nat Nat Nat := ⟨[("k", [nativeSubW])]⟩

/-- A registry with one disconnected and one live subscription under key `k`. -/
def regDiscW : Subscriptions Nat Nat Nat := ⟨[("k", [discSubW, nativeSubW])]⟩

/-- A concrete subscription with an always-ready channel and empty queue. -/
def subFifoW : EventSubscription Nat Nat Nat := ⟨listenerOkW, [], EventKind.Native⟩

/-- A concrete dispatch sequence of two events. -/
def opsFifoW : List (SubOp Nat) := [SubOp.dispatch (0, 1), SubOp.dispatch (1, 2)]

/-! Association-list laws for the registry map. -/

theorem getSubs_eq (s : Subscriptions T J Err) (m : String) :
    s.getSubs m = lookupList m s.subs := rfl

theorem lookupList_modifyFirst_self (m : String) (f : A → A) (l : List (String × A)) :
    lookupList m (modifyFirst m f l) = (lookupList m l).map f := by
  induction l with
  | nil => rfl
  | cons kv rest ih =>
    obtain ⟨a, b⟩ := kv
    by_cases h : a = m
    · subst h
      simp [lookupList, modifyFirst]
    · simp [lookupList, modifyFirst, h, ih]

theorem lookupList_modifyFirst_ne (k m : String) (hk : k ≠ m) (f : A → A)
    (l : List (String × A)) : lookupList k (modifyFirst m f l) = lookupList k l := by
  induction l with
  | nil => rfl
  | cons kv rest ih =>
    obtain ⟨a, b⟩ := kv
    by_cases h : a = m
    · subst h
      have hma : ¬ a = k := fun hcon => hk hcon.symm
      simp [lookupList, modifyFirst, hma]
    · by_cases h2 : a = k
      · subst h2
        simp [lookupList, modifyFirst, h]
      · simp [lookupList, modifyFirst, h, h2, ih]

theorem modifyFirst_eq_of_fix (m : String) (f : A → A) (l : List (String × A)) (v : A)
    (hv : lookupList m l = some v) (hf : f v = v) : modifyFirst m f l = l := by
  induction l with
  | nil => rfl
  | cons kv rest ih =>
    obtain ⟨a, b⟩ := kv
    by_cases h : a = m
    · subst h
      have hv' : b = v := by simpa [lookupList] using hv
      subst hv'
      simp [modifyFirst, hf]
    · simp only [lookupList, h, if_false, if_neg] at hv
      simp [modifyFirst, h, ih hv]

theorem lookupList_map_values (m : String) (g : A → A) (l : List (String × A)) :
    lookupList m (l.map (fun kv => (kv.1, g kv.2))) = (lookupList m l).map g := by
  induction l with
  | nil => rfl
  | cons kv rest ih =>
    obtain ⟨a, b⟩ := kv
    by_cases h : a = m <;> simp [lookupList, h, ih]

/-! Kind-preservation of enqueueing, and the fate of `Native` subscriptions
under the custom dispatch path. -/

theorem start_send_kind (sub : EventSubscription T J Err) (e : ArcEvent T) :
    (sub.start_send e).kind = sub.kind := rfl

theorem filter_not_custom_map_if (g : EventSubscription T J Err → EventSubscription T J Err)
    (hg : ∀ sub, (g sub).kind = sub.kind) (l : List (EventSubscription T J Err)) :
    (l.map (fun sub => if sub.kind.is_custom then g sub else sub)).filter
        (fun sub => !sub.kind.is_custom) =
      l.filter (fun sub => !sub.kind.is_custom) := by
  induction l with
  | nil => rfl
  | cons sub rest ih =>
    by_cases h : sub.kind.is_custom = true
    · simp [List.filter, h, hg, ih]
    · simp only [Bool.not_eq_true] at h
      simp [List.filter, h, ih]

/-- C2: if the registered custom decoder rejects the raw value, then
`try_send_custom` returns that decode error to the caller, performs exactly
one decoder invocation, and leaves the registry (hence every pending queue of
every subscription under the key) exactly as it was. -/
theorem try_send_custom_decode_error_atomic (s : Subscriptions T J Err) (m : String)
    (val : J) (subs : List (EventSubscription T J Err))
    (conv : J → Except Err (ArcEvent T)) (er : Err)
    (hs : s.getSubs m = some subs) (hc : firstCustomConv subs = some conv)
    (he : conv val = Except.error er) :
    s.try_send_custom m val = ⟨Except.error er, s, 1⟩ := by
  rw [getSubs_eq] at hs
  simp only [Subscriptions.try_send_custom, hs, hc, he]

/-- Witness for C2 at a concrete registry with one failing custom
subscription. -/
theorem try_send_custom_decode_error_atomic_witness :
    (regErrW.getSubs "m" = some [customSubErrW] ∧
      firstCustomConv [customSubErrW] = some convErrW ∧
      convErrW 5 = Except.error 42) ∧
    Subscriptions.try_send_custom regErrW "m" 5 = ⟨Except.error 42, regErrW, 1⟩ :=
  ⟨⟨rfl, rfl, rfl⟩,
    try_send_custom_decode_error_atomic regErrW "m" 5 [customSubErrW] convErrW 42 rfl rfl rfl⟩

/-- C3: when the key's list contains at least one `Custom` subscription (so a
first custom decoder exists) and that decoder succeeds, `try_send_custom`
returns `Ok`, invokes a decoder exactly once, and the key's list afterwards is
the old list in which exactly the `Custom` subscriptions got the one decoded
handle enqueued, every `Native` subscription being left untouched. -/
theorem try_send_custom_success_delivers_to_all_custom (s : Subscriptions T J Err)
    (m : String) (val : J) (subs : List (EventSubscription T J Err))
    (conv : J → Except Err (ArcEvent T)) (ev : ArcEvent T)
    (hs : s.getSubs m = some subs) (hc : firstCustomConv subs = some conv)
    (he : conv val = Except.ok ev) :
    (s.try_send_custom m val).res = Except.ok () ∧
    (s.try_send_custom m val).decoderCalls = 1 ∧
    (s.try_send_custom m val).state.getSubs m =
      some (subs.map (fun sub => if sub.kind.is_custom then sub.start_send ev else sub)) := by
  rw [getSubs_eq] at hs
  simp only [Subscriptions.try_send_custom, hs, hc, he]
  refine ⟨by trivial, by trivial, ?_⟩
  rw [getSubs_eq]
  show lookupList m (modifyFirst m _ s.subs) = _
  rw [lookupList_modifyFirst_self, hs]
  rfl

/-- Witness for C3 at a concrete registry with one native and one custom
subscription. -/
theorem try_send_custom_success_delivers_to_all_custom_witness :
    (regMixedW.getSubs "m" = some [nativeSubW, customSubW] ∧
      firstCustomConv [nativeSubW, customSubW] = some convOkW ∧
      convOkW 3 = Except.ok (100, 3)) ∧
    ((Subscriptions.try_send_custom regMixedW "m" 3).res = Except.ok () ∧
      (Subscriptions.try_send_custom regMixedW "m" 3).decoderCalls = 1 ∧
      (Subscriptions.try_send_custom regMixedW "m" 3).state.getSubs "m" =
        some ([nativeSubW, customSubW].map
          (fun sub => if sub.kind.is_custom then sub.start_send (100, 3) else sub))) :=
  ⟨⟨rfl, rfl, rfl⟩,
    try_send_custom_success_delivers_to_all_custom regMixedW "m" 3 [nativeSubW, customSubW]
      convOkW (100, 3) rfl rfl rfl⟩

/-- C10: when the key has no `Custom` subscription at all — its list has no
custom entry, or the key is absent from the registry — `try_send_custom`
returns `Ok(())`, invokes no decoder, and leaves the registry unchanged, so a
malformed raw value produces no observable error. -/
theorem try_send_custom_no_custom_subscriber_ok (s : Subscriptions T J Err) (m : String)
    (val : J)
    (h : s.getSubs m = none ∨
      ∃ subs, s.getSubs m = some subs ∧ firstCustomConv subs = none) :
    s.try_send_custom m val = ⟨Except.ok (), s, 0⟩ := by
  rcases h with h | ⟨subs, hs, hc⟩
  · rw [getSubs_eq] at h
    simp only [Subscriptions.try_send_custom, h]
  · rw [getSubs_eq] at hs
    simp only [Subscriptions.try_send_custom, hs, hc]

/-- Witness for C10: a registry whose only key holds a single native
subscription, probed both on that key and on an absent key. -/
theorem try_send_custom_no_custom_subscriber_ok_witness :
    (regNativeOnlyW.getSubs "k" = some [nativeSubW] ∧
      firstCustomConv [nativeSubW] = none) ∧
    Subscriptions.try_send_custom regNativeOnlyW "k" 999 =
      ⟨Except.ok (), regNativeOnlyW, 0⟩ :=
  ⟨⟨rfl, rfl⟩,
    try_send_custom_no_custom_subscriber_ok regNativeOnlyW "k" 999
      (Or.inr ⟨[nativeSubW], rfl, rfl⟩)⟩

/-- C8: `start_send` on key `m` never fails (it is a total function), leaves
every subscription registered under any other key — queue and channel —
untouched, and when no subscription exists under `m` (key absent or its list
empty) the whole registry is unchanged. -/
theorem start_send_frame_other_keys (s : Subscriptions T J Err) (fresh : Nat)
    (m : String) (e : T) :
    (∀ k, k ≠ m → (s.start_send fresh m e).1.getSubs k = s.getSubs k) ∧
    ((s.getSubs m = none ∨ s.getSubs m = some []) → (s.start_send fresh m e).1 = s) := by
  constructor
  · intro k hk
    cases hm : lookupList m s.subs with
    | none => simp only [Subscriptions.start_send, hm]
    | some subs =>
      simp only [Subscriptions.start_send, hm, getSubs_eq]
      exact lookupList_modifyFirst_ne k m hk _ s.subs
  · intro h
    rcases h with h | h
    · rw [getSubs_eq] at h
      simp only [Subscriptions.start_send, h]
    · rw [getSubs_eq] at h
      simp only [Subscriptions.start_send, h]
      rw [modifyFirst_eq_of_fix m _ s.subs [] h rfl]

/-- Witness for C8: dispatch under key `m` leaves key `k` untouched, and a
dispatch under an absent key leaves the registry unchanged. -/
theorem start_send_frame_other_keys_witness :
    ("k" ≠ "m" ∧
      (Subscriptions.start_send regMixedW 0 "m" 7).1.getSubs "k" = regMixedW.getSubs "k") ∧
    (regMixedW.getSubs "nope" = none ∧
      (Subscriptions.start_send regMixedW 0 "nope" 7).1 = regMixedW) :=
  ⟨⟨by decide, (start_send_frame_other_keys regMixedW 0 "m" 7).1 "k" (by decide)⟩,
    ⟨rfl, (start_send_frame_other_keys regMixedW 0 "nope" 7).2 (Or.inl rfl)⟩⟩

/-- C7: one dispatch wraps the payload into a shared handle exactly once and
every receiving subscription receives that identical handle.  For
`start_send`: exactly one `Arc::new` happens (the fresh allocation counter
advances by one) and every subscription of the key gets the same handle
`(fresh, e)` appended.  For a successful `try_send_custom`: the decoder runs
exactly once and every `Custom` subscription of the key gets the same decoded
handle appended. -/
theorem dispatch_shares_one_handle (s : Subscriptions T J Err) (fresh : Nat) (m : String)
    (e : T) (val : J) (subs : List (EventSubscription T J Err))
    (hs : s.getSubs m = some subs) :
    ((s.start_send fresh m e).2 = fresh + 1 ∧
      (s.start_send fresh m e).1.getSubs m =
        some (subs.map (fun sub => sub.start_send (fresh, e)))) ∧
    (∀ conv ev, firstCustomConv subs = some conv → conv val = Except.ok ev →
      (s.try_send_custom m val).decoderCalls = 1 ∧
      (s.try_send_custom m val).state.getSubs m =
        some (subs.map (fun sub => if sub.kind.is_custom then sub.start_send ev else sub))) := by
  rw [getSubs_eq] at hs
  constructor
  · simp only [Subscriptions.start_send, hs]
    refine ⟨by trivial, ?_⟩
    rw [getSubs_eq]
    show lookupList m (modifyFirst m _ s.subs) = _
    rw [lookupList_modifyFirst_self, hs]
    rfl
  · intro conv ev hc he
    simp only [Subscriptions.try_send_custom, hs, hc, he]
    refine ⟨by trivial, ?_⟩
    rw [getSubs_eq]
    show lookupList m (modifyFirst m _ s.subs) = _
    rw [lookupList_modifyFirst_self, hs]
    rfl

/-- Witness for C7 at a concrete registry with one native and one custom
subscription. -/
theorem dispatch_shares_one_handle_witness :
    regCustomOnlyW.getSubs "m" = some [customSubW] ∧
    ((Subscriptions.start_send regCustomOnlyW 5 "m" 7).2 = 6 ∧
      (Subscriptions.start_send regCustomOnlyW 5 "m" 7).1.getSubs "m" =
        some ([customSubW].map (fun sub => sub.start_send (5, 7)))) ∧
    ((Subscriptions.try_send_custom regCustomOnlyW "m" 3).decoderCalls = 1 ∧
      (Subscriptions.try_send_custom regCustomOnlyW "m" 3).state.getSubs "m" =
        some ([customSubW].map
          (fun sub => if sub.kind.is_custom then sub.start_send (100, 3) else sub))) :=
  ⟨rfl,
    (dispatch_shares_one_handle regCustomOnlyW 5 "m" 7 3 [customSubW] rfl).1,
    (dispatch_shares_one_handle regCustomOnlyW 5 "m" 7 3 [customSubW] rfl).2
      convOkW (100, 3) rfl rfl⟩

/-- Counterexample for C4: in a registry holding a single `Custom`
subscription under key `m` with an empty queue, `start_send` on `m` does
enqueue the event onto that `Custom` subscription — its queue goes from `[]`
to `[(0, 7)]` — refuting the direction "a Custom Subscription never gets an
event enqueued by start_send". -/
theorem start_send_enqueues_to_custom_counterexample :
    ((regCustomOnlyW.getSubs "m").map (List.map (fun sub => sub.kind.is_custom)) =
      some [true]) ∧
    queuesUnder regCustomOnlyW "m" = some [[]] ∧
    queuesUnder (Subscriptions.start_send regCustomOnlyW 0 "m" 7).1 "m" = some [[(0, 7)]] ∧
    queuesUnder (Subscriptions.start_send regCustomOnlyW 0 "m" 7).1 "m" ≠
      queuesUnder regCustomOnlyW "m" :=
  ⟨rfl, rfl, rfl, by decide⟩

/-- C4 (amended): a `Native` subscription under a key never gets anything
enqueued by `try_send_custom` on that key (the natives of the key, with their
full state, are unchanged on every path), while `start_send` enqueues the
wrapped handle onto every subscription of the key regardless of kind — so
`Custom` subscriptions do receive native dispatches. -/
theorem dispatch_kind_routing_amended :
    (∀ (s : Subscriptions T J Err) (m : String) (val : J),
      nativesUnder (s.try_send_custom m val).state m = nativesUnder s m) ∧
    (∀ (s : Subscriptions T J Err) (fresh : Nat) (m : String) (e : T)
      (subs : List (EventSubscription T J Err)), s.getSubs m = some subs →
      (s.start_send fresh m e).1.getSubs m =
        some (subs.map (fun sub => sub.start_send (fresh, e)))) := by
  constructor
  · intro s m val
    cases hm : lookupList m s.subs with
    | none => simp only [Subscriptions.try_send_custom, hm]
    | some subs =>
      cases hc : firstCustomConv subs with
      | none => simp only [Subscriptions.try_send_custom, hm, hc]
      | some conv =>
        cases he : conv val with
        | error er => simp only [Subscriptions.try_send_custom, hm, hc, he]
        | ok ev =>
          simp only [Subscriptions.try_send_custom, hm, hc, he, nativesUnder, getSubs_eq]
          rw [lookupList_modifyFirst_self, hm]
          show some (List.filter _ (List.map _ subs)) = some (List.filter _ subs)
          rw [filter_not_custom_map_if (fun sub => sub.start_send ev)
            (fun sub => start_send_kind sub ev) subs]
  · intro s fresh m e subs hs
    rw [getSubs_eq] at hs
    simp only [Subscriptions.start_send, hs, getSubs_eq]
    show lookupList m (modifyFirst m _ s.subs) = _
    rw [lookupList_modifyFirst_self, hs]
    rfl

/-- Witness for C4 (amended) at a concrete registry. -/
theorem dispatch_kind_routing_amended_witness :
    nativesUnder (Subscriptions.try_send_custom regMixedW "m" 3).state "m" =
      nativesUnder regMixedW "m" ∧
    (regMixedW.getSubs "m" = some [nativeSubW, customSubW] ∧
      (Subscriptions.start_send regMixedW 0 "m" 7).1.getSubs "m" =
        some ([nativeSubW, customSubW].map (fun sub => sub.start_send (0, 7)))) :=
  ⟨dispatch_kind_routing_amended.1 regMixedW "m" 3,
    rfl, dispatch_kind_routing_amended.2 regMixedW 0 "m" 7 [nativeSubW, customSubW] rfl⟩

/-- C1: evaluation of the stream adapter at the failing input.  When the
underlying channel yields an item whose runtime type does not match the
stream's bound type, `EventStream::poll_next` as written returns
`Poll::Pending` — it does not discard the item and continue pulling within the
same poll, and no wakeup is scheduled on this path (the spec's §4.3/§9 require
the discard-and-continue behaviour). -/
theorem eventStream_poll_next_mismatch_pending :
    EventStream.poll_next 0 (Poll.Ready (some ⟨1, (0 : Nat)⟩)) = Poll.Pending := rfl

/-! Delivery state machine lemmas. -/

theorem poll_fst (sub : EventSubscription T J Err) :
    sub.poll.1 = (pollLoop sub.listener sub.queued_events).1 := rfl

theorem poll_listener (sub : EventSubscription T J Err) :
    sub.poll.2.listener = (pollLoop sub.listener sub.queued_events).2.1 := rfl

theorem poll_queued (sub : EventSubscription T J Err) :
    sub.poll.2.queued_events = (pollLoop sub.listener sub.queued_events).2.2 := rfl

theorem pollLoop_always_ready (q : List (ArcEvent T)) : ∀ l : Listener T, AlwaysReady l →
    ∃ l', pollLoop l q = (Poll.Ready (Except.ok ()), l', []) ∧
      l'.sent = l.sent ++ q ∧ l'.readyOracle = l.readyOracle ∧
      l'.sendOracle = l.sendOracle := by
  induction q with
  | nil =>
    intro l h
    refine ⟨{ l with readyCalls := l.readyCalls + 1 }, ?_, by simp, rfl, rfl⟩
    simp [pollLoop, Listener.poll_ready, h.1]
  | cons e rest ih =>
    intro l h
    obtain ⟨l2, hteq, hsent, hro, hso⟩ := ih { l with readyCalls := l.readyCalls + 1, sendCalls := l.sendCalls + 1, sent := l.sent ++ [e] } ⟨h.1, h.2⟩
    refine ⟨l2, ?_, by simpa using hsent, hro, hso⟩
    simp only [pollLoop, Listener.poll_ready, Listener.sink_start_send, h.1, h.2]
    exact hteq

theorem pollLoop_sent_sublist (q : List (ArcEvent T)) : ∀ l : Listener T,
    ∃ t, (pollLoop l q).2.1.sent = l.sent ++ t ∧
      List.Sublist (t ++ (pollLoop l q).2.2) q := by
  induction q with
  | nil =>
    intro l
    refine ⟨[], ?_, ?_⟩
    · cases hr : l.readyOracle l.readyCalls with
      | Pending => simp [pollLoop, Listener.poll_ready, hr]
      | Ready a => cases a <;> simp [pollLoop, Listener.poll_ready, hr]
    · cases hr : l.readyOracle l.readyCalls with
      | Pending => simp [pollLoop, Listener.poll_ready, hr]
      | Ready a => cases a <;> simp [pollLoop, Listener.poll_ready, hr]
  | cons e rest ih =>
    intro l
    cases hr : l.readyOracle l.readyCalls with
    | Pending =>
      refine ⟨[], by simp [pollLoop, Listener.poll_ready, hr], ?_⟩
      simp only [pollLoop, Listener.poll_ready, hr, List.nil_append]
      exact List.Sublist.refl _
    | Ready a =>
      cases a with
      | error err =>
        refine ⟨[], by simp [pollLoop, Listener.poll_ready, hr], ?_⟩
        simp only [pollLoop, Listener.poll_ready, hr, List.nil_append]
        exact List.Sublist.refl _
      | ok u =>
        cases hs : l.sendOracle l.sendCalls with
        | some err =>
          refine ⟨[], ?_, ?_⟩
          · simp [pollLoop, Listener.poll_ready, Listener.sink_start_send, hr, hs]
          · simp only [pollLoop, Listener.poll_ready, Listener.sink_start_send, hr, hs,
              List.nil_append]
            exact (List.Sublist.refl rest).cons e
        | none =>
          obtain ⟨t, hsent, hsub⟩ := ih { l with readyCalls := l.readyCalls + 1, sendCalls := l.sendCalls + 1, sent := l.sent ++ [e] }
          refine ⟨e :: t, ?_, ?_⟩
          · simp only [pollLoop, Listener.poll_ready, Listener.sink_start_send, hr, hs]
            simpa using hsent
          · simp only [pollLoop, Listener.poll_ready, Listener.sink_start_send, hr, hs]
            exact hsub.cons₂ e

theorem pollLoop_pending (q : List (ArcEvent T)) : ∀ (l l' : Listener T) q',
    pollLoop l q = (Poll.Pending, l', q') →
    ∃ k, q' = q.drop k ∧ l'.sent = l.sent ++ q.take k := by
  induction q with
  | nil =>
    intro l l' q' h
    cases hr : l.readyOracle l.readyCalls with
    | Pending =>
      simp only [pollLoop, Listener.poll_ready, hr, Prod.mk.injEq] at h
      exact ⟨0, h.2.2.symm, by rw [← h.2.1]; simp⟩
    | Ready a =>
      cases a <;> simp [pollLoop, Listener.poll_ready, hr] at h
  | cons e rest ih =>
    intro l l' q' h
    cases hr : l.readyOracle l.readyCalls with
    | Pending =>
      simp only [pollLoop, Listener.poll_ready, hr, Prod.mk.injEq] at h
      exact ⟨0, h.2.2.symm, by rw [← h.2.1]; simp⟩
    | Ready a =>
      cases a with
      | error err => simp [pollLoop, Listener.poll_ready, hr] at h
      | ok u =>
        cases hs : l.sendOracle l.sendCalls with
        | some err =>
          simp [pollLoop, Listener.poll_ready, Listener.sink_start_send, hr, hs] at h
        | none =>
          simp only [pollLoop, Listener.poll_ready, Listener.sink_start_send, hr, hs] at h
          obtain ⟨k, hq, hsent⟩ := ih _ l' q' h
          refine ⟨k + 1, by simpa using hq, ?_⟩
          rw [hsent]
          simp

theorem applyOps_cons (sub : EventSubscription T J Err) (op : SubOp T)
    (ops : List (SubOp T)) : applyOps sub (op :: ops) = applyOps (applyOp sub op) ops := rfl

theorem applyOps_append (sub : EventSubscription T J Err) (ops1 ops2 : List (SubOp T)) :
    applyOps sub (ops1 ++ ops2) = applyOps (applyOps sub ops1) ops2 := by
  simp [applyOps, List.foldl_append]

theorem applyOps_sent_sublist (ops : List (SubOp T)) : ∀ sub : EventSubscription T J Err,
    ∃ s, (applyOps sub ops).listener.sent = sub.listener.sent ++ s ∧
      List.Sublist (s ++ (applyOps sub ops).queued_events)
        (sub.queued_events ++ dispatched ops) := by
  induction ops with
  | nil =>
    intro sub
    exact ⟨[], by simp [applyOps], by simp [applyOps, dispatched, List.Sublist.refl]⟩
  | cons op rest ih =>
    intro sub
    cases op with
    | dispatch e =>
      obtain ⟨s, hsent, hsub⟩ := ih (sub.start_send e)
      refine ⟨s, ?_, ?_⟩
      · rw [applyOps_cons]
        exact hsent
      · rw [applyOps_cons]
        simpa [dispatched, EventSubscription.start_send, List.append_assoc] using hsub
    | drain =>
      obtain ⟨t, htsent, htsub⟩ := pollLoop_sent_sublist sub.queued_events sub.listener
      obtain ⟨s, hsent, hsub⟩ := ih sub.poll.2
      refine ⟨t ++ s, ?_, ?_⟩
      · rw [applyOps_cons]
        show (applyOps sub.poll.2 rest).listener.sent = _
        rw [hsent, poll_listener, htsent]
        simp
      · rw [applyOps_cons]
        show List.Sublist ((t ++ s) ++ (applyOps sub.poll.2 rest).queued_events) _
        have h1 : List.Sublist (s ++ (applyOps sub.poll.2 rest).queued_events)
            (sub.poll.2.queued_events ++ dispatched rest) := hsub
        have h2 := h1.append_left t
        have h3 : List.Sublist (t ++ sub.poll.2.queued_events) sub.queued_events := by
          rw [poll_queued]
          exact htsub
        have h4 := h3.append_right (dispatched rest)
        have h5 : List.Sublist (t ++ (s ++ (applyOps sub.poll.2 rest).queued_events))
            ((t ++ sub.poll.2.queued_events) ++ dispatched rest) := by
          simpa [List.append_assoc] using h2
        simpa [dispatched, List.append_assoc] using h5.trans h4

theorem applyOps_always_ready (ops : List (SubOp T)) : ∀ sub : EventSubscription T J Err,
    AlwaysReady sub.listener →
    AlwaysReady (applyOps sub ops).listener ∧
    (applyOps sub ops).listener.sent ++ (applyOps sub ops).queued_events =
      sub.listener.sent ++ sub.queued_events ++ dispatched ops := by
  induction ops with
  | nil =>
    intro sub h
    exact ⟨h, by simp [applyOps, dispatched]⟩
  | cons op rest ih =>
    intro sub h
    cases op with
    | dispatch e =>
      obtain ⟨h1, h2⟩ := ih (sub.start_send e) h
      refine ⟨h1, ?_⟩
      rw [applyOps_cons]
      show (applyOps (sub.start_send e) rest).listener.sent ++
          (applyOps (sub.start_send e) rest).queued_events =
        sub.listener.sent ++ sub.queued_events ++ dispatched (SubOp.dispatch e :: rest)
      rw [h2]
      simp [EventSubscription.start_send, dispatched, List.append_assoc]
    | drain =>
      obtain ⟨l2, heq, hsent, hro, hso⟩ :=
        pollLoop_always_ready sub.queued_events sub.listener h
      have hl : sub.poll.2.listener = l2 := by rw [poll_listener, heq]
      have hq : sub.poll.2.queued_events = [] := by rw [poll_queued, heq]
      have h2 : AlwaysReady sub.poll.2.listener := by
        rw [hl]
        exact ⟨fun n => by rw [hro]; exact h.1 n, fun n => by rw [hso]; exact h.2 n⟩
      obtain ⟨h3, h4⟩ := ih sub.poll.2 h2
      refine ⟨h3, ?_⟩
      rw [applyOps_cons]
      show (applyOps sub.poll.2 rest).listener.sent ++
          (applyOps sub.poll.2 rest).queued_events =
        sub.listener.sent ++ sub.queued_events ++ dispatched (SubOp.drain :: rest)
      rw [h4, hl, hq, hsent]
      simp [dispatched]

/-- C5: per-subscription delivery is FIFO.  In general, across any sequence
of dispatches and drain calls, the events handed to this subscription's
delivery channel extend `sent` by an in-order, duplicate-free selection
(a sublist) of the dispatched events; and when the channel is always ready
(stays connected, accepts every send) a final drain call leaves the queue
empty with the handed-over events being exactly the dispatched events, in
dispatch order — no reordering, duplication or skipping. -/
theorem event_subscription_fifo_delivery (sub : EventSubscription T J Err)
    (ops : List (SubOp T)) :
    (∃ s, (applyOps sub ops).listener.sent = sub.listener.sent ++ s ∧
      List.Sublist (s ++ (applyOps sub ops).queued_events)
        (sub.queued_events ++ dispatched ops)) ∧
    (AlwaysReady sub.listener →
      (applyOps sub (ops ++ [SubOp.drain])).listener.sent =
        sub.listener.sent ++ sub.queued_events ++ dispatched ops ∧
      (applyOps sub (ops ++ [SubOp.drain])).queued_events = []) := by
  constructor
  · exact applyOps_sent_sublist ops sub
  · intro h
    obtain ⟨hmid, hsum⟩ := applyOps_always_ready ops sub h
    have hfin : applyOps sub (ops ++ [SubOp.drain]) = (applyOps sub ops).poll.2 := by
      rw [applyOps_append]
      rfl
    obtain ⟨l2, heq, hsent, _, _⟩ := pollLoop_always_ready
      (applyOps sub ops).queued_events (applyOps sub ops).listener hmid
    have hl : (applyOps sub ops).poll.2.listener = l2 := by rw [poll_listener, heq]
    have hq : (applyOps sub ops).poll.2.queued_events = [] := by rw [poll_queued, heq]
    constructor
    · rw [hfin, hl, hsent, hsum]
    · rw [hfin, hq]

/-- Witness for C5: two dispatches then a drain on an always-ready channel
hand over exactly the two events, in order, leaving an empty queue. -/
theorem event_subscription_fifo_delivery_witness :
    AlwaysReady subFifoW.listener ∧
    ((applyOps subFifoW (opsFifoW ++ [SubOp.drain])).listener.sent =
        subFifoW.listener.sent ++ subFifoW.queued_events ++ dispatched opsFifoW ∧
      (applyOps subFifoW (opsFifoW ++ [SubOp.drain])).queued_events = []) :=
  ⟨⟨fun _ => rfl, fun _ => rfl⟩,
    (event_subscription_fifo_delivery subFifoW opsFifoW).2 ⟨fun _ => rfl, fun _ => rfl⟩⟩

/-- C9: whenever `EventSubscription::poll` returns `Pending`, the queue is
exactly the original queue minus a front segment that was entirely handed to
the channel: readiness is checked before each pop, so no event is popped and
then lost on suspension. -/
theorem event_subscription_poll_pending_preserves_queue (sub : EventSubscription T J Err)
    (h : sub.poll.1 = Poll.Pending) :
    ∃ k, sub.poll.2.queued_events = sub.queued_events.drop k ∧
      sub.poll.2.listener.sent = sub.listener.sent ++ sub.queued_events.take k := by
  rcases heq : pollLoop sub.listener sub.queued_events with ⟨r, l', q'⟩
  rw [poll_fst, heq] at h
  subst h
  obtain ⟨k, hq, hsent⟩ := pollLoop_pending sub.queued_events sub.listener l' q' heq
  refine ⟨k, ?_, ?_⟩
  · rw [poll_queued, heq]
    exact hq
  · rw [poll_listener, heq]
    exact hsent

/-- Witness for C9: a subscription with one queued event whose channel
reports not-ready suspends with the queue intact. -/
theorem event_subscription_poll_pending_preserves_queue_witness :
    pendSubW.poll.1 = Poll.Pending ∧
    ∃ k, pendSubW.poll.2.queued_events = pendSubW.queued_events.drop k ∧
      pendSubW.poll.2.listener.sent =
        pendSubW.listener.sent ++ pendSubW.queued_events.take k :=
  ⟨rfl, event_subscription_poll_pending_preserves_queue pendSubW rfl⟩

/-! Registry drain (garbage collection) lemmas. -/

theorem swapTail_concat (B : List A) (z : A) : swapTail (B ++ [z]) = z :: B := by
  simp [swapTail, List.getLast?_concat, List.dropLast_concat]

theorem swapTail_perm (B : List A) : List.Perm (swapTail B) B := by
  rcases List.eq_nil_or_concat B with h | ⟨L, b, h⟩
  · subst h
    exact List.Perm.refl _
  · subst h
    rw [List.concat_eq_append, swapTail_concat]
    exact (List.perm_append_singleton b L).symm

theorem swapRemoveOpt_append (A' : List A) (x : A) (B : List A) :
    swapRemoveOpt (A' ++ x :: B) A'.length = some (x, A' ++ swapTail B) := by
  induction A' with
  | nil =>
    rcases List.eq_nil_or_concat B with h | ⟨L, b, h⟩
    · subst h
      rfl
    · subst h
      rw [List.concat_eq_append]
      simp [swapRemoveOpt, swapTail, List.getLast?_concat, List.dropLast_concat]
  | cons a rest ih =>
    simp [swapRemoveOpt, ih]

theorem pollVec_keep_perm (n : Nat)
    (ih : ∀ subs : List (EventSubscription T J Err), n ≤ subs.length →
      List.Perm (pollVec n subs) ((subs.take n).filterMap pollKeep ++ subs.drop n))
    (A' B : List (EventSubscription T J Err)) (sub' : EventSubscription T J Err)
    (hlenA : A'.length = n) :
    List.Perm (pollVec n ((A' ++ swapTail B) ++ [sub']))
      (A'.filterMap pollKeep ++ ([sub'] ++ B)) := by
  rw [List.append_assoc]
  have hlen2 : n ≤ (A' ++ (swapTail B ++ [sub'])).length := by
    rw [List.length_append, hlenA]
    exact Nat.le_add_right n _
  have h1 := ih (A' ++ (swapTail B ++ [sub'])) hlen2
  rw [List.take_left' hlenA, List.drop_left' hlenA] at h1
  refine h1.trans (List.Perm.append_left _ ?_)
  exact (List.perm_append_singleton _ _).trans ((swapTail_perm B).cons sub')

theorem pollVec_drop_perm (n : Nat)
    (ih : ∀ subs : List (EventSubscription T J Err), n ≤ subs.length →
      List.Perm (pollVec n subs) ((subs.take n).filterMap pollKeep ++ subs.drop n))
    (A' B : List (EventSubscription T J Err)) (hlenA : A'.length = n) :
    List.Perm (pollVec n (A' ++ swapTail B)) (A'.filterMap pollKeep ++ B) := by
  have hlen2 : n ≤ (A' ++ swapTail B).length := by
    rw [List.length_append, hlenA]
    exact Nat.le_add_right n _
  have h1 := ih (A' ++ swapTail B) hlen2
  rw [List.take_left' hlenA, List.drop_left' hlenA] at h1
  exact h1.trans (List.Perm.append_left _ (swapTail_perm B))

theorem pollVec_perm (n : Nat) : ∀ subs : List (EventSubscription T J Err),
    n ≤ subs.length →
    List.Perm (pollVec n subs) ((subs.take n).filterMap pollKeep ++ subs.drop n) := by
  induction n with
  | zero =>
    intro subs h
    simp only [pollVec, List.take_zero, List.filterMap_nil, List.drop_zero, List.nil_append]
    exact List.Perm.refl subs
  | succ n ih =>
    intro subs h
    have hn : n < subs.length := h
    have hd : subs.drop n = subs[n] :: subs.drop (n + 1) := by
      rw [List.drop_eq_getElem_cons hn]
    have hsubs : subs.take n ++ subs[n] :: subs.drop (n + 1) = subs := by
      rw [← hd, List.take_append_drop]
    have hlenA : (subs.take n).length = n := by
      rw [List.length_take]
      exact Nat.min_eq_left (Nat.le_of_lt hn)
    have htake : subs.take (n + 1) = subs.take n ++ [subs[n]] := by
      rw [List.take_succ, List.getElem?_eq_getElem hn]
      rfl
    have hsw : swapRemoveOpt subs n =
        some (subs[n], subs.take n ++ swapTail (subs.drop (n + 1))) := by
      have h2 := swapRemoveOpt_append (subs.take n) (subs[n]) (subs.drop (n + 1))
      rw [hlenA, hsubs] at h2
      exact h2
    rw [htake, List.filterMap_append]
    simp only [pollVec, hsw]
    rcases hpoll : (subs[n]).poll with ⟨r, sub'⟩
    cases r with
    | Pending =>
      have hk : pollKeep (subs[n]) = some sub' := by
        simp [pollKeep, hpoll]
      simpa [hk, List.append_assoc] using
        pollVec_keep_perm n ih (subs.take n) (subs.drop (n + 1)) sub' hlenA
    | Ready a =>
      cases a with
      | ok u =>
        have hk : pollKeep (subs[n]) = some sub' := by
          simp [pollKeep, hpoll]
        simpa [hk, List.append_assoc] using
          pollVec_keep_perm n ih (subs.take n) (subs.drop (n + 1)) sub' hlenA
      | error err =>
        cases hdisc : err.is_disconnected with
        | true =>
          have hk : pollKeep (subs[n]) = none := by
            simp [pollKeep, hpoll, hdisc]
          simpa [hk, hdisc, List.append_assoc] using
            pollVec_drop_perm n ih (subs.take n) (subs.drop (n + 1)) hlenA
        | false =>
          have hk : pollKeep (subs[n]) = some sub' := by
            simp [pollKeep, hpoll, hdisc]
          simpa [hk, hdisc, List.append_assoc] using
            pollVec_keep_perm n ih (subs.take n) (subs.drop (n + 1)) sub' hlenA

/-- C6: one `Subscriptions::poll` pass over a key's list keeps (as a
permutation — the loop's `swap_remove`/`push` reorders the vector, and the
spec declares list order immaterial) exactly the polled versions of those
subscriptions whose delivery poll did not report a disconnection error, and
drops exactly those that did; subscriptions reporting idle, pending on
backpressure, or a non-disconnection error are all retained.  The Rust
function returns `()`, so no removal error can reach the caller. -/
theorem subscriptions_poll_removes_only_disconnected (s : Subscriptions T J Err)
    (key : String) (subs : List (EventSubscription T J Err))
    (hs : s.getSubs key = some subs) :
    ∃ subs', (Subscriptions.poll s).getSubs key = some subs' ∧
      List.Perm subs' (subs.filterMap pollKeep) := by
  rw [getSubs_eq] at hs
  refine ⟨pollVec subs.length subs, ?_, ?_⟩
  · have h2 := lookupList_map_values key (fun l => pollVec l.length l) s.subs
    rw [hs] at h2
    exact h2
  · have h := pollVec_perm subs.length subs (Nat.le_refl _)
    rw [List.take_length, List.drop_length, List.append_nil] at h
    exact h

/-- Witness for C6: a registry with a disconnected and a live subscription
under one key; after one poll pass exactly the live one remains. -/
theorem subscriptions_poll_removes_only_disconnected_witness :
    regDiscW.getSubs "k" = some [discSubW, nativeSubW] ∧
    ∃ subs', (Subscriptions.poll regDiscW).getSubs "k" = some subs' ∧
      List.Perm subs' ([discSubW, nativeSubW].filterMap pollKeep) :=
  ⟨rfl,
    subscriptions_poll_removes_only_disconnected regDiscW "k" [discSubW, nativeSubW] rfl⟩

end Chromiumoxide
